import Mathlib

/-!
Verification of the Good Ways point-of-sale web application.

The TypeScript sources are shallowly embedded: JavaScript numbers that hold
money amounts and quantities are modelled as rationals (`ℚ`), strings as Lean
`String` (a list of characters), nullable values as `Option`, and the records
inserted into / updated in the backend database as Lean structures.  React
`useState` state is modelled as explicit state records transformed by the
event-handler functions.
-/

namespace GoodWays

/-! ## JavaScript string helpers -/

/-- Models `value.replace(/[^0-9]/g, '')` — keep only the decimal digit characters,
in order (`src/pages/Payment.tsx`, `handleCashReceivedChange`). -/
def digitsOnly (v : String) : String :=
  ⟨v.data.filter Char.isDigit⟩

/-- Models `parseFloat` restricted to the all-digit strings produced by
`digitsOnly`: the decimal value of the digit string (0 for the empty
string, where the surrounding code never calls it). -/
def parseDigits (s : String) : ℚ :=
  ((s.data.foldl (fun n c => n * 10 + (c.toNat - '0'.toNat)) 0 : ℕ) : ℚ)

/-- Models `s.trim()`: remove leading and trailing whitespace. -/
def jsTrim (s : String) : String :=
  ⟨((s.data.dropWhile Char.isWhitespace).reverse.dropWhile
    Char.isWhitespace).reverse⟩

/-! ## Payment page (`src/pages/Payment.tsx`)

Component-local `useState` state of the `Payment` component. -/

inductive TransactionType where
  | bayar_langsung
  | open_bill
deriving DecidableEq, Repr

inductive PaymentMethod where
  | cash
  | qris
  | debit
deriving DecidableEq, Repr

/-- The string stored in the database for a payment method. -/
def PaymentMethod.toStr : PaymentMethod → String
  | .cash => "cash"
  | .qris => "qris"
  | .debit => "debit"

/-- The `useState` fields of the `Payment` component that the payment logic
reads and writes. -/
structure PaymentState where
  transactionType : TransactionType
  paymentMethod : PaymentMethod
  cashReceived : String
  cashChange : ℚ
  customerName : String
  notes : String
deriving DecidableEq, Repr

/-- Handler `handleCashReceivedChange` (`Payment.tsx` lines 50–61): strip non-digits,
store the digit string, and set `cashChange` to `received - grandTotal`
clamped at 0 (0 when the digit string is empty). -/
def handleCashReceivedChange (grandTotal : ℚ) (value : String)
    (s : PaymentState) : PaymentState :=
  let numValue := digitsOnly value
  if numValue ≠ "" then
    let received := parseDigits numValue
    let change := received - grandTotal
    { s with cashReceived := numValue
             cashChange := if change ≥ 0 then change else 0 }
  else
    { s with cashReceived := numValue, cashChange := 0 }

/-- Handler `setQuickCash` (`Payment.tsx` lines 64–68): store the amount (rendered
with `toString`; we keep the digits of the amount, which is a natural number
in every call site) and set `cashChange` to `amount - grandTotal` clamped
at 0. -/
def setQuickCash (grandTotal : ℚ) (amount : ℚ) (s : PaymentState) :
    PaymentState :=
  let change := amount - grandTotal
  { s with cashReceived := toString amount.num
           cashChange := if change ≥ 0 then change else 0 }

/-- Function `validatePayment` (`Payment.tsx` lines 71–83).  Returns
`some errorMessage` or `none`. -/
def validatePayment (grandTotal : ℚ) (s : PaymentState) : Option String :=
  match s.transactionType with
  | .bayar_langsung =>
    match s.paymentMethod with
    | .cash =>
      if s.cashReceived = "" then some "Masukkan nominal pembayaran"
      else if parseDigits s.cashReceived < grandTotal then
        some "Nominal pembayaran kurang"
      else none
    | _ => none
  | .open_bill =>
    if jsTrim s.customerName = "" then some "Masukkan nama pelanggan"
    else none

/-- Function `isFormValid` (`Payment.tsx` lines 86–99). -/
def isFormValid (grandTotal : ℚ) (s : PaymentState) : Bool :=
  match s.transactionType with
  | .bayar_langsung =>
    match s.paymentMethod with
    | .cash =>
      if s.cashReceived = "" then false
      else if parseDigits s.cashReceived < grandTotal then false
      else true
    | _ => true
  | .open_bill => (jsTrim s.customerName).length > 0

/-! ## Cart items (`src/pages/Cashier.tsx`) -/

/-- A product row of the `products` table (`Cashier.tsx`, `Product`). -/
structure Product where
  id : String
  name : String
  price : ℚ
  category : String
  recipe : Option String
  image_url : String
  has_variants : Bool
  has_addons : Bool
deriving DecidableEq, Repr

/-- A selected add-on (name and price). -/
structure Addon where
  name : String
  price : ℚ
deriving DecidableEq, Repr

/-- A cart item (`Cashier.tsx`, `CartItem`). -/
structure CartItem where
  product : Product
  quantity : ℚ
  variant : Option String
  addOns : List Addon
  totalPrice : ℚ
deriving DecidableEq, Repr

/-! ## The transaction records written to the database (`Payment.tsx`) -/

/-- One element of the `items` array stored on a transaction
(`Payment.tsx` lines 137–145). -/
structure SoldItem where
  product_id : String
  product_name : String
  price : ℚ
  quantity : ℚ
  variant : Option String
  addOns : List Addon
  totalPrice : ℚ
deriving DecidableEq, Repr

/-- The record inserted into the `transactions` table for a new transaction
(`Payment.tsx` lines 136–156). -/
structure NewTransaction where
  items : List SoldItem
  subtotal : ℚ
  total : ℚ
  payment_status : String
  payment_method : Option String
  cash_received : Option ℚ
  cash_change : Option ℚ
  customer_name : Option String
  notes : Option String
  cashier_name : String
  created_by : String
deriving DecidableEq, Repr

/-- The cart-to-items mapping of `Payment.tsx` lines 137–145. -/
def cartToItems (cart : List CartItem) : List SoldItem :=
  cart.map fun item =>
    { product_id := item.product.id
      product_name := item.product.name
      price := item.product.price
      quantity := item.quantity
      variant := item.variant
      addOns := item.addOns
      totalPrice := item.totalPrice }

/-- The insert payload built by `handleProcessPayment` when
`existingTransactionId` is unset (`Payment.tsx` lines 136–156). -/
def buildNewTransaction (cart : List CartItem) (grandTotal : ℚ)
    (cashierName userId : String) (s : PaymentState) : NewTransaction :=
  { items := cartToItems cart
    subtotal := grandTotal
    total := grandTotal
    payment_status :=
      if s.transactionType = .open_bill then "open_bill" else "paid"
    payment_method :=
      if s.transactionType = .bayar_langsung then some s.paymentMethod.toStr
      else none
    cash_received :=
      if s.paymentMethod = .cash ∧ s.transactionType = .bayar_langsung then
        some (parseDigits s.cashReceived)
      else none
    cash_change :=
      if s.paymentMethod = .cash ∧ s.transactionType = .bayar_langsung then
        some s.cashChange
      else none
    customer_name :=
      if s.transactionType = .open_bill then some (jsTrim s.customerName)
      else none
    notes := if jsTrim s.notes = "" then none else some (jsTrim s.notes)
    cashier_name := cashierName
    created_by := userId }

/-- A full row of the `transactions` table, as read back for an open bill. -/
structure TransactionRow where
  id : String
  transaction_number : String
  transaction_date : String
  items : List SoldItem
  subtotal : ℚ
  total : ℚ
  payment_status : String
  payment_method : Option String
  cash_received : Option ℚ
  cash_change : Option ℚ
  customer_name : Option String
  notes : Option String
  cashier_name : String
deriving DecidableEq, Repr

/-- The open-bill payment update (`Payment.tsx` lines 115–132): Supabase
`update(updateData)` sets exactly the columns named in `updateData`
(`payment_status`, `payment_method`, `cash_received`, `cash_change`) on the
matched row and leaves every other column as it was. -/
def applyOpenBillPayment (s : PaymentState) (t : TransactionRow) :
    TransactionRow :=
  { t with
    payment_status := "paid"
    payment_method := some s.paymentMethod.toStr
    cash_received :=
      if s.paymentMethod = .cash then some (parseDigits s.cashReceived)
      else none
    cash_change :=
      if s.paymentMethod = .cash then some s.cashChange else none }

/-! ## Browser storage (`window.localStorage` / `window.sessionStorage`)

A Web Storage area is a key–value store; `setItem` overwrites an existing
key in place or appends a new one, `removeItem` deletes a key. -/

/-- A browser storage area as an association list of key–value pairs. -/
def Storage := List (String × String)
deriving DecidableEq

/-- The empty storage area. -/
def Storage.empty : Storage := []

/-- Models `storage.getItem(k)`: `some` value, or `none` (JS `null`) when absent. -/
def Storage.getItem : Storage → String → Option String
  | [], _ => none
  | (k, v) :: rest, key => if k = key then some v else Storage.getItem rest key

/-- Models `storage.setItem(k, v)`. -/
def Storage.setItem : Storage → String → String → Storage
  | [], key, value => [(key, value)]
  | (k, v) :: rest, key, value =>
    if k = key then (k, value) :: rest
    else (k, v) :: Storage.setItem rest key value

/-- Models `storage.removeItem(k)`. -/
def Storage.removeItem (st : Storage) (key : String) : Storage :=
  st.filter fun e => e.1 ≠ key

/-- Minimal JSON string escaping as performed by `JSON.stringify` on the
plain ASCII identifier strings this application stores (backslash and
double quote; other characters are kept as they are). -/
def jsonEscape (s : String) : String :=
  ⟨s.data.foldr (fun c acc =>
    if c = '\\' then '\\' :: '\\' :: acc
    else if c = '"' then '\\' :: '"' :: acc
    else c :: acc) []⟩

/-- A JSON string literal. -/
def jsonStr (s : String) : String := "\"" ++ jsonEscape s ++ "\""

/-! ## App component (`src/App.tsx`) -/

/-- The logged-in user (`App.tsx`, `User`). -/
structure User where
  id : String
  username : String
  role : String
deriving DecidableEq, Repr

/-- Models `JSON.stringify(userData)` for the `{ id, username, role }` object the
login page hands to `App` (property insertion order `id`, `username`,
`role`). -/
def stringifyUser (u : User) : String :=
  "\x7b" ++ jsonStr "id" ++ ":" ++ jsonStr u.id ++ ","
    ++ jsonStr "username" ++ ":" ++ jsonStr u.username ++ ","
    ++ jsonStr "role" ++ ":" ++ jsonStr u.role ++ "\x7d"

/-- The `App` component state together with the browser `sessionStorage` it
reads and writes. -/
structure AppState where
  user : Option User
  sessionStore : Storage
deriving DecidableEq

/-- Handler `handleLogin` (`App.tsx` lines 30–33): set the user and persist it to
`sessionStorage` under the key `goodways_user`. -/
def handleLogin (userData : User) (st : AppState) : AppState :=
  { user := some userData
    sessionStore :=
      st.sessionStore.setItem "goodways_user" (stringifyUser userData) }

/-- Handler `handleLogout` (`App.tsx` lines 35–38): clear the user and remove the
`goodways_user` key from `sessionStorage`. -/
def handleLogout (st : AppState) : AppState :=
  { user := none
    sessionStore := st.sessionStore.removeItem "goodways_user" }

/-! ## Cashier component (`src/pages/Cashier.tsx`) -/

/-- A modal add-on row with its checkbox state (`modalAddOns`). -/
structure ModalAddon where
  name : String
  price : ℚ
  selected : Bool
deriving DecidableEq, Repr

/-- Models `modalAddOns.filter(a => a.selected).map(a => ({name, price}))`. -/
def selectedAddOns (modalAddOns : List ModalAddon) : List Addon :=
  (modalAddOns.filter fun a => a.selected).map fun a =>
    { name := a.name, price := a.price }

/-- Models `selectedAddOns.reduce((sum, a) => sum + a.price, 0)`. -/
def addOnsTotal (addOns : List Addon) : ℚ :=
  addOns.foldl (fun sum a => sum + a.price) 0

/-- The cart item built by `addToCart` / `updateCartItem`
(`Cashier.tsx` lines 213–223 and 316–326): `totalPrice` is
`(product.price + addOnsTotal) * quantity`. -/
def mkCartItem (selectedProduct : Product) (modalQuantity : ℚ)
    (modalVariant : String) (modalAddOns : List ModalAddon) : CartItem :=
  let addOns := selectedAddOns modalAddOns
  { product := selectedProduct
    quantity := modalQuantity
    variant := if selectedProduct.has_variants then some modalVariant else none
    addOns := addOns
    totalPrice := (selectedProduct.price + addOnsTotal addOns) * modalQuantity }

/-- Function `addToCart` (new-item path, `Cashier.tsx` lines 203–227):
`setCart([...cart, newItem])`. -/
def addToCart (cart : List CartItem) (selectedProduct : Product)
    (modalQuantity : ℚ) (modalVariant : String)
    (modalAddOns : List ModalAddon) : List CartItem :=
  cart ++ [mkCartItem selectedProduct modalQuantity modalVariant modalAddOns]

/-- Function `updateCartItem` (`Cashier.tsx` lines 313–333): replace the item at
`editingCartIndex`. -/
def updateCartItem (cart : List CartItem) (editingCartIndex : ℕ)
    (selectedProduct : Product) (modalQuantity : ℚ) (modalVariant : String)
    (modalAddOns : List ModalAddon) : List CartItem :=
  cart.set editingCartIndex
    (mkCartItem selectedProduct modalQuantity modalVariant modalAddOns)

/-- Derived value `grandTotal` (`Cashier.tsx` line 230):
`cart.reduce((sum, item) => sum + item.totalPrice, 0)`. -/
def grandTotal (cart : List CartItem) : ℚ :=
  cart.foldl (fun sum item => sum + item.totalPrice) 0

/-- Models `JSON.stringify(cart)`: it is some injective serialisation of the cart; its
precise text does not matter to any claim, so the cart is serialised with
its derived `Repr` instance. -/
def stringifyCart (cart : List CartItem) : String :=
  toString (repr cart)

/-- The `useEffect` at `Cashier.tsx` lines 84–87: every cart change is
persisted to `localStorage` under the key `goodways-cart`. -/
def persistCart (cart : List CartItem) (localStore : Storage) : Storage :=
  localStore.setItem "goodways-cart" (stringifyCart cart)

/-- Handler `handlePaymentSuccess` (`Home.tsx` lines 37–39):
`localStorage.removeItem('goodways-cart')`. -/
def clearCartStorage (localStore : Storage) : Storage :=
  localStore.removeItem "goodways-cart"

/-! ## Printer service (`src/services/PrinterService.ts`) -/

/-- Separator line for 58mm paper (`PrinterService.ts` line 35). -/
def LINE_SINGLE : String := "--------------------------------"

/-- Separator line for 58mm paper (`PrinterService.ts` line 36). -/
def LINE_DOUBLE : String := "================================"

/-- Separator line for 58mm paper (`PrinterService.ts` line 37). -/
def LINE_DASHED : String := "- - - - - - - - - - - - - - - - "

/-- Function `justifyLine` (`PrinterService.ts` lines 132–139).  Strings are their
character lists; `left.substring(0, n)` is `take n` (JS clamps a negative
`n` to 0, as truncated `ℕ` subtraction does), `' '.repeat(n)` is
`replicate n ' '`.  The default width is 32. -/
def justifyLine (left right : String) (maxLength : ℕ := 32) : String :=
  if maxLength ≤ left.length + right.length then
    ⟨left.data.take (maxLength - right.length) ++ right.data⟩
  else
    ⟨left.data ++
      List.replicate (maxLength - (left.length + right.length)) ' ' ++
      right.data⟩

/-- The UTF-8 encoding produced by `new TextEncoder().encode(data)`, as a
list of byte values: the concatenation of the UTF-8 bytes of each
character (Lean's `String.toUTF8` is exactly the `ByteArray` of
`data.data.flatMap utf8EncodeChar`). -/
def encodeUTF8 (data : String) : List ℕ :=
  (data.data.flatMap String.utf8EncodeChar).map fun b => b.toNat

/-- The chunking loop of `sendData` (`PrinterService.ts` lines 119–126):
`for (i = 0; i < encoded.length; i += 20)` writes `encoded.slice(i, i + 20)`;
equivalently, repeatedly split off the first 20 bytes until none remain.
The loop runs at most `encoded.length` iterations, which bounds the
structural recursion fuel of `chunkGo`. -/
def chunkGo : ℕ → List ℕ → List (List ℕ)
  | 0, _ => []
  | _, [] => []
  | fuel + 1, b :: rest =>
    (b :: rest).take 20 :: chunkGo fuel ((b :: rest).drop 20)

/-- The chunks written for an encoded payload. -/
def chunkData (encoded : List ℕ) : List (List ℕ) :=
  chunkGo encoded.length encoded

/-- Function `sendData` (`PrinterService.ts` lines 111–127): the sequence of chunks
written to the printer characteristic, in write order. -/
def sendData (data : String) : List (List ℕ) :=
  chunkData (encodeUTF8 data)

/-! ## Reports page (`src/pages/Reports.tsx`) -/

/-- An element of a transaction's `items` array as the reports page reads
it (`item.product_name`, `item.quantity`, `item.totalPrice`). -/
structure TransItem where
  product_name : String
  quantity : ℚ
  totalPrice : ℚ
deriving DecidableEq, Repr

/-- A transaction row as the reports page reads it
(`Reports.tsx`, `Transaction`). -/
structure Transaction where
  id : String
  transaction_number : String
  transaction_date : String
  items : List TransItem
  total : ℚ
  payment_status : String
  payment_method : Option String
  customer_name : Option String
  cashier_name : String
deriving DecidableEq, Repr

/-- Structure `OverviewStats` (`Reports.tsx` lines 18–24). -/
structure OverviewStats where
  totalSales : ℚ
  totalTransactions : ℕ
  averageTransaction : ℚ
  openBills : ℕ
  todaySales : ℚ
deriving DecidableEq, Repr

/-- Function `calculateStats` (`Reports.tsx` lines 124–145).  The check
`new Date(t.transaction_date) >= today` depends on the wall clock, so it is
abstracted as a predicate `isToday` on the date string. -/
def calculateStats (isToday : String → Bool) (data : List Transaction) :
    OverviewStats :=
  let paidTransactions := data.filter fun t => t.payment_status == "paid"
  let openBillsCount :=
    (data.filter fun t => t.payment_status == "open_bill").length
  let totalSales := paidTransactions.foldl (fun sum t => sum + t.total) 0
  let totalTransactions := paidTransactions.length
  let averageTransaction :=
    if totalTransactions > 0 then totalSales / (totalTransactions : ℚ) else 0
  let todaySales :=
    (paidTransactions.filter fun t => isToday t.transaction_date).foldl
      (fun sum t => sum + t.total) 0
  { totalSales := totalSales
    totalTransactions := totalTransactions
    averageTransaction := averageTransaction
    openBills := openBillsCount
    todaySales := todaySales }

/-- Structure `BestSellerProduct` (`Reports.tsx` lines 26–30). -/
structure BestSellerProduct where
  product_name : String
  total_quantity : ℚ
  total_revenue : ℚ
deriving DecidableEq, Repr

/-- The state of the `productMap` JS `Map`: an association list in key
insertion order, mapping a product name to its accumulated
(quantity, revenue) pair. -/
abbrev ProductMap := List (String × ℚ × ℚ)

/-- Models `productMap.get(name)`. -/
def lookupPM : ProductMap → String → Option (ℚ × ℚ)
  | [], _ => none
  | (n, qr) :: rest, name =>
    if n = name then some qr else lookupPM rest name

/-- One step of the aggregation loop (`Reports.tsx` lines 153–159):
`existing = productMap.get(name) || {quantity: 0, revenue: 0};`
`productMap.set(name, {existing.quantity + q, existing.revenue + r})`.
A JS `Map.set` updates an existing key in place and appends a new key. -/
def upsertPM : ProductMap → String → ℚ → ℚ → ProductMap
  | [], name, q, r => [(name, (0 + q, 0 + r))]
  | (n, (q0, r0)) :: rest, name, q, r =>
    if n = name then (n, (q0 + q, r0 + r)) :: rest
    else (n, (q0, r0)) :: upsertPM rest name q r

/-- The fully aggregated `productMap` over the paid transactions
(`Reports.tsx` lines 149–160). -/
def buildProductMap (data : List Transaction) : ProductMap :=
  (data.filter fun t => t.payment_status == "paid").foldl
    (fun m t =>
      t.items.foldl
        (fun m it => upsertPM m it.product_name it.quantity it.totalPrice) m)
    []

/-- Descending insertion by `total_quantity`: the element is placed before
the first list element with strictly smaller `total_quantity`. -/
def insertDesc (x : BestSellerProduct) :
    List BestSellerProduct → List BestSellerProduct
  | [] => [x]
  | y :: ys =>
    if y.total_quantity < x.total_quantity then x :: y :: ys
    else y :: insertDesc x ys

/-- Models `.sort((a, b) => b.total_quantity - a.total_quantity)`: sort in
non-increasing order of `total_quantity` (insertion sort; the comparator
only orders by `total_quantity`, so any conforming sort yields a list
sorted this way). -/
def sortDesc (l : List BestSellerProduct) : List BestSellerProduct :=
  l.foldr insertDesc []

/-- Function `calculateBestSellers` (`Reports.tsx` lines 148–172): aggregate the
paid transactions' items by product name, map the entries to
`BestSellerProduct`, sort descending by quantity, take the first 5. -/
def calculateBestSellers (data : List Transaction) :
    List BestSellerProduct :=
  let bestSellersList :=
    (buildProductMap data).map fun e =>
      { product_name := e.1
        total_quantity := e.2.1
        total_revenue := e.2.2 : BestSellerProduct }
  (sortDesc bestSellersList).take 5

/-- The total quantity of the items named `name` in a list of items. -/
def qtySum (name : String) (its : List TransItem) : ℚ :=
  ((its.filter fun it => it.product_name = name).map fun it =>
    it.quantity).sum

/-- The total revenue of the items named `name` in a list of items. -/
def revSum (name : String) (its : List TransItem) : ℚ :=
  ((its.filter fun it => it.product_name = name).map fun it =>
    it.totalPrice).sum

/-- All items of the paid transactions, in aggregation order. -/
def paidItems (data : List Transaction) : List TransItem :=
  (((data.filter fun t => t.payment_status == "paid").map fun t =>
    t.items)).flatten

/-! ## Supporting lemmas -/

theorem getItem_setItem_self (st : Storage) (k v : String) :
    (st.setItem k v).getItem k = some v := by
  induction st with
  | nil => simp [Storage.setItem, Storage.getItem]
  | cons e rest ih =>
    obtain ⟨k0, v0⟩ := e
    by_cases h : k0 = k <;> simp [Storage.setItem, Storage.getItem, h, ih]

theorem getItem_setItem_ne (st : Storage) (k v k' : String) (h : k' ≠ k) :
    (st.setItem k v).getItem k' = st.getItem k' := by
  induction st with
  | nil => simp [Storage.setItem, Storage.getItem, Ne.symm h]
  | cons e rest ih =>
    obtain ⟨k0, v0⟩ := e
    by_cases h0 : k0 = k
    · subst h0
      simp [Storage.setItem, Storage.getItem, Ne.symm h]
    · simp [Storage.setItem, Storage.getItem, h0, ih]

theorem getItem_removeItem_self (st : Storage) (k : String) :
    (st.removeItem k).getItem k = none := by
  induction st with
  | nil => simp [Storage.removeItem, Storage.getItem]
  | cons e rest ih =>
    obtain ⟨k0, v0⟩ := e
    by_cases h : k0 = k <;>
      simp_all [Storage.removeItem, Storage.getItem, List.filter]

theorem getItem_removeItem_ne (st : Storage) (k k' : String) (h : k' ≠ k) :
    (st.removeItem k).getItem k' = st.getItem k' := by
  induction st with
  | nil => simp [Storage.removeItem, Storage.getItem]
  | cons e rest ih =>
    obtain ⟨k0, v0⟩ := e
    by_cases h0 : k0 = k
    · subst h0
      simp_all [Storage.removeItem, Storage.getItem, List.filter,
        Ne.symm h]
    · by_cases h1 : k0 = k' <;>
        simp_all [Storage.removeItem, Storage.getItem, List.filter]

/-! ## Claims -/

/-- C1, counterexample: the claim that no operation of the application
persists state in browser-local storage is false — `handleLogin` writes the
user to `sessionStorage` under `goodways_user`, and the Cashier cart
persistence writes the cart to `localStorage` under `goodways-cart`. -/
theorem browser_storage_counterexample :
    (handleLogin ⟨"u1", "admin", "admin"⟩
        ⟨none, Storage.empty⟩).sessionStore.getItem "goodways_user" ≠ none ∧
    (persistCart [] Storage.empty).getItem "goodways-cart" ≠ none := by
  constructor <;> decide

/-- C1, amended: browser-storage persistence is confined to exactly two
keys — the `App` login/logout handlers touch only `goodways_user` in
`sessionStorage`, and the Cashier cart persistence (and the payment-success
cleanup) touch only `goodways-cart` in `localStorage`; every other key of
either storage area is left unchanged by these operations. -/
theorem browser_storage_keys_spec (u : User) (st : AppState)
    (cart : List CartItem) (ls : Storage) (k : String) :
    (k ≠ "goodways_user" →
      (handleLogin u st).sessionStore.getItem k = st.sessionStore.getItem k ∧
      (handleLogout st).sessionStore.getItem k = st.sessionStore.getItem k) ∧
    (k ≠ "goodways-cart" →
      (persistCart cart ls).getItem k = ls.getItem k ∧
      (clearCartStorage ls).getItem k = ls.getItem k) ∧
    (handleLogin u st).sessionStore.getItem "goodways_user" =
      some (stringifyUser u) ∧
    (handleLogout st).sessionStore.getItem "goodways_user" = none ∧
    (persistCart cart ls).getItem "goodways-cart" =
      some (stringifyCart cart) ∧
    (clearCartStorage ls).getItem "goodways-cart" = none := by
  refine ⟨fun h => ⟨?_, ?_⟩, fun h => ⟨?_, ?_⟩, ?_, ?_, ?_, ?_⟩
  · exact getItem_setItem_ne _ _ _ _ h
  · exact getItem_removeItem_ne _ _ _ h
  · exact getItem_setItem_ne _ _ _ _ h
  · exact getItem_removeItem_ne _ _ _ h
  · exact getItem_setItem_self _ _ _
  · exact getItem_removeItem_self _ _
  · exact getItem_setItem_self _ _ _
  · exact getItem_removeItem_self _ _

/-- C1, witness for the amended claim at concrete inputs. -/
theorem browser_storage_keys_check :
    ("other-key" : String) ≠ "goodways_user" ∧
    (handleLogin ⟨"u1", "admin", "admin"⟩
        ⟨none, Storage.empty⟩).sessionStore.getItem "other-key" =
      Storage.empty.getItem "other-key" := by
  refine ⟨by decide, ?_⟩
  exact ((browser_storage_keys_spec ⟨"u1", "admin", "admin"⟩
    ⟨none, Storage.empty⟩ [] Storage.empty "other-key").1 (by decide)).1

/-- C2: processing a new transaction inserts a record with
`subtotal = total = grandTotal`; an open bill gets status `open_bill`, no
payment method, no cash fields, and the trimmed customer name; a direct
payment gets status `paid`, the selected method, and the cash fields
exactly when the method is `cash`. -/
theorem new_transaction_insert_spec (cart : List CartItem) (gt : ℚ)
    (cn uid : String) (s : PaymentState) :
    (buildNewTransaction cart gt cn uid s).subtotal = gt ∧
    (buildNewTransaction cart gt cn uid s).total = gt ∧
    (s.transactionType = .open_bill →
      (buildNewTransaction cart gt cn uid s).payment_status = "open_bill" ∧
      (buildNewTransaction cart gt cn uid s).payment_method = none ∧
      (buildNewTransaction cart gt cn uid s).cash_received = none ∧
      (buildNewTransaction cart gt cn uid s).cash_change = none ∧
      (buildNewTransaction cart gt cn uid s).customer_name =
        some (jsTrim s.customerName)) ∧
    (s.transactionType = .bayar_langsung →
      (buildNewTransaction cart gt cn uid s).payment_status = "paid" ∧
      (buildNewTransaction cart gt cn uid s).payment_method =
        some s.paymentMethod.toStr ∧
      (s.paymentMethod = .cash →
        (buildNewTransaction cart gt cn uid s).cash_received =
          some (parseDigits s.cashReceived) ∧
        (buildNewTransaction cart gt cn uid s).cash_change =
          some s.cashChange) ∧
      (s.paymentMethod ≠ .cash →
        (buildNewTransaction cart gt cn uid s).cash_received = none ∧
        (buildNewTransaction cart gt cn uid s).cash_change = none)) := by
  obtain ⟨tt, pm, cr, cc, cname, nts⟩ := s
  cases tt <;> cases pm <;>
    simp [buildNewTransaction, PaymentMethod.toStr]

/-- C2, witness: the theorem applied to a concrete open bill and a concrete
cash payment. -/
theorem new_transaction_insert_check :
    (PaymentState.mk .open_bill .cash "" 0 " Budi " "").transactionType =
      TransactionType.open_bill ∧
    (buildNewTransaction [] 15000 "kasir" "u1"
      (PaymentState.mk .open_bill .cash "" 0 " Budi " "")).customer_name =
      some "Budi" ∧
    (buildNewTransaction [] 15000 "kasir" "u1"
      (PaymentState.mk .bayar_langsung .cash "20000" 5000 "" "")).cash_received =
      some 20000 := by
  have h1 := new_transaction_insert_spec [] 15000 "kasir" "u1"
    (PaymentState.mk .open_bill .cash "" 0 " Budi " "")
  have h2 := new_transaction_insert_spec [] 15000 "kasir" "u1"
    (PaymentState.mk .bayar_langsung .cash "20000" 5000 "" "")
  have e1 := (h1.2.2.1 rfl).2.2.2.2
  have e2 := ((h2.2.2.2 rfl).2.2.1 rfl).1
  exact ⟨rfl, e1.trans (by decide), e2.trans (by decide)⟩

/-- C4: paying an existing open bill updates exactly the four fields
`payment_status`, `payment_method`, `cash_received`, `cash_change` of the
matched row; every other column — `items`, `subtotal`, `total`,
`customer_name`, `notes`, `transaction_number` (and `id`,
`transaction_date`, `cashier_name`) — is unchanged. -/
theorem open_bill_update_frame (s : PaymentState) (t : TransactionRow) :
    (applyOpenBillPayment s t).payment_status = "paid" ∧
    (applyOpenBillPayment s t).payment_method =
      some s.paymentMethod.toStr ∧
    (s.paymentMethod = .cash →
      (applyOpenBillPayment s t).cash_received =
        some (parseDigits s.cashReceived) ∧
      (applyOpenBillPayment s t).cash_change = some s.cashChange) ∧
    (s.paymentMethod ≠ .cash →
      (applyOpenBillPayment s t).cash_received = none ∧
      (applyOpenBillPayment s t).cash_change = none) ∧
    (applyOpenBillPayment s t).items = t.items ∧
    (applyOpenBillPayment s t).subtotal = t.subtotal ∧
    (applyOpenBillPayment s t).total = t.total ∧
    (applyOpenBillPayment s t).customer_name = t.customer_name ∧
    (applyOpenBillPayment s t).notes = t.notes ∧
    (applyOpenBillPayment s t).transaction_number = t.transaction_number ∧
    (applyOpenBillPayment s t).id = t.id ∧
    (applyOpenBillPayment s t).transaction_date = t.transaction_date ∧
    (applyOpenBillPayment s t).cashier_name = t.cashier_name := by
  obtain ⟨tt, pm, cr, cc, cname, nts⟩ := s
  cases pm <;> simp [applyOpenBillPayment, PaymentMethod.toStr]

/-- C4, witness: the theorem applied to a concrete QRIS payment of a
concrete open bill. -/
theorem open_bill_update_check :
    (PaymentState.mk .bayar_langsung .qris "" 0 "" "").paymentMethod ≠
      PaymentMethod.cash ∧
    (applyOpenBillPayment (PaymentState.mk .bayar_langsung .qris "" 0 "" "")
      (TransactionRow.mk "t1" "TRX-1" "2024-01-01" [] 10000 10000
        "open_bill" none none none (some "Budi") none "kasir")).cash_received =
      none := by
  have h := open_bill_update_frame
    (PaymentState.mk .bayar_langsung .qris "" 0 "" "")
    (TransactionRow.mk "t1" "TRX-1" "2024-01-01" [] 10000 10000
      "open_bill" none none none (some "Budi") none "kasir")
  exact ⟨by decide, (h.2.2.2.1 (by decide)).1⟩

/-- C3: for a direct payment with method `cash`, `validatePayment` returns
an error exactly when the cash-received field is empty or its parsed value
is below `grandTotal`; for `qris` and `debit` it always returns `null`; for
an open bill it errors exactly when the trimmed customer name is empty;
and `isFormValid` is `true` exactly when `validatePayment` is `null`.  The
hypothesis restricts to states whose cash field holds only digits — the
only states `handleCashReceivedChange` (and the initial state) produce —
so that `parseDigits` agrees with JavaScript `parseFloat`. -/
theorem validate_payment_spec (gt : ℚ) (s : PaymentState)
    (hdig : s.cashReceived.data.all Char.isDigit) :
    (s.transactionType = .bayar_langsung → s.paymentMethod = .cash →
      (validatePayment gt s ≠ none ↔
        (s.cashReceived = "" ∨ parseDigits s.cashReceived < gt))) ∧
    (s.transactionType = .bayar_langsung → s.paymentMethod ≠ .cash →
      validatePayment gt s = none) ∧
    (s.transactionType = .open_bill →
      (validatePayment gt s ≠ none ↔ jsTrim s.customerName = "")) ∧
    (isFormValid gt s = true ↔ validatePayment gt s = none) := by
  obtain ⟨tt, pm, cr, cc, cname, nts⟩ := s
  refine ⟨?_, ?_, ?_, ?_⟩
  · rintro rfl rfl
    by_cases h1 : cr = "" <;>
      by_cases h2 : parseDigits cr < gt <;>
        simp [validatePayment, h1, h2]
  · rintro rfl hpm
    cases pm with
    | cash => exact absurd rfl hpm
    | qris => simp [validatePayment]
    | debit => simp [validatePayment]
  · rintro rfl
    by_cases h1 : jsTrim cname = "" <;> simp [validatePayment, h1]
  · cases tt with
    | bayar_langsung =>
      cases pm with
      | cash =>
        by_cases h1 : cr = "" <;>
          by_cases h2 : parseDigits cr < gt <;>
            simp [validatePayment, isFormValid, h1, h2]
      | qris => simp [validatePayment, isFormValid]
      | debit => simp [validatePayment, isFormValid]
    | open_bill =>
      by_cases h1 : jsTrim cname = ""
      · simp [validatePayment, isFormValid, h1]
      · have hd : (jsTrim cname).data ≠ [] := by
          intro hnil
          exact h1 (String.ext hnil)
        have hlen : 0 < (jsTrim cname).length := List.length_pos.mpr hd
        simp [validatePayment, isFormValid, h1, hlen]

/-- C3, witness: a concrete sufficient cash payment validates, and
validity of the form coincides with the absence of a validation error. -/
theorem validate_payment_check :
    (PaymentState.cashReceived
      (PaymentState.mk .bayar_langsung .cash "70000" 20000 "" "")).data.all
      Char.isDigit = true ∧
    validatePayment 50000
      (PaymentState.mk .bayar_langsung .cash "70000" 20000 "" "") = none := by
  have h := validate_payment_spec 50000
    (PaymentState.mk .bayar_langsung .cash "70000" 20000 "" "") (by decide)
  exact ⟨by decide, h.2.2.2.mp (by decide)⟩

/-- C5: after `handleCashReceivedChange v`, the stored `cashReceived` is
the digit characters of `v` in order, and `cashChange` is the received
amount minus `grandTotal` when the former is at least the latter and 0
otherwise (0 when no digit remains); after `setQuickCash a`, `cashChange`
is `max 0 (a - grandTotal)`; in particular `cashChange` is never negative
after either operation. -/
theorem cash_change_spec (gt : ℚ) (v : String) (a : ℚ) (s : PaymentState) :
    (handleCashReceivedChange gt v s).cashReceived = digitsOnly v ∧
    (digitsOnly v ≠ "" →
      (handleCashReceivedChange gt v s).cashChange =
        if gt ≤ parseDigits (digitsOnly v) then
          parseDigits (digitsOnly v) - gt
        else 0) ∧
    (digitsOnly v = "" → (handleCashReceivedChange gt v s).cashChange = 0) ∧
    (setQuickCash gt a s).cashChange = max 0 (a - gt) ∧
    0 ≤ (handleCashReceivedChange gt v s).cashChange ∧
    0 ≤ (setQuickCash gt a s).cashChange := by
  have hmax : ∀ x : ℚ, (if x ≥ 0 then x else 0) = max 0 x := by
    intro x
    rcases le_or_lt 0 x with h | h
    · rw [if_pos h, max_eq_right h]
    · rw [if_neg (not_le.mpr h), max_eq_left h.le]
  have hquick : (setQuickCash gt a s).cashChange = max 0 (a - gt) :=
    hmax (a - gt)
  by_cases hv : digitsOnly v = ""
  · refine ⟨?_, fun h => absurd hv h, fun _ => ?_, hquick, ?_, ?_⟩
    · simp [handleCashReceivedChange, hv]
    · simp [handleCashReceivedChange, hv]
    · simp [handleCashReceivedChange, hv]
    · rw [hquick]
      exact le_max_left 0 _
  · have hcc : (handleCashReceivedChange gt v s).cashChange =
        max 0 (parseDigits (digitsOnly v) - gt) := by
      simp only [handleCashReceivedChange, hv, ne_eq, not_false_eq_true,
        if_true]
      exact hmax _
    refine ⟨?_, fun _ => ?_, fun h => absurd h hv, hquick, ?_, ?_⟩
    · simp [handleCashReceivedChange, hv]
    · rw [hcc]
      rcases le_or_lt gt (parseDigits (digitsOnly v)) with h | h
      · rw [if_pos h, max_eq_right (by linarith)]
      · rw [if_neg (not_le.mpr h), max_eq_left (by linarith)]
    · rw [hcc]
      exact le_max_left 0 _
    · rw [hquick]
      exact le_max_left 0 _

/-- C5, witness: entering `"60.000"` against a 50 000 total keeps the
digits `60000` and computes a 10 000 change; quick cash 100 000 gives a
50 000 change. -/
theorem cash_change_check :
    digitsOnly "60.000" ≠ "" ∧
    (handleCashReceivedChange 50000 "60.000"
      (PaymentState.mk .bayar_langsung .cash "" 0 "" "")).cashReceived =
      "60000" ∧
    (handleCashReceivedChange 50000 "60.000"
      (PaymentState.mk .bayar_langsung .cash "" 0 "" "")).cashChange =
      10000 ∧
    (setQuickCash 50000 100000
      (PaymentState.mk .bayar_langsung .cash "" 0 "" "")).cashChange =
      50000 := by
  have h := cash_change_spec 50000 "60.000" 100000
    (PaymentState.mk .bayar_langsung .cash "" 0 "" "")
  have hp : parseDigits (digitsOnly "60.000") = 60000 := by decide
  refine ⟨by decide, h.1.trans (by decide), ?_, ?_⟩
  · refine (h.2.1 (by decide)).trans ?_
    rw [hp, if_pos (by norm_num)]
    norm_num
  · refine h.2.2.2.1.trans ?_
    rw [max_eq_right (by norm_num)]
    norm_num

/-- C6: with `right` no longer than the width, `justifyLine` always yields
exactly `maxLength` characters ending in `right`: left text, padding
spaces, then `right` when everything fits, and `left` truncated to
`maxLength - right.length` characters otherwise; and each receipt
separator line is exactly 32 characters wide (the default width). -/
theorem justifyLine_spec (left right : String) (m : ℕ)
    (h : right.length ≤ m) :
    (justifyLine left right m).length = m ∧
    (∃ p, (justifyLine left right m).data = p ++ right.data) ∧
    (left.length + right.length < m →
      justifyLine left right m =
        ⟨left.data ++
          List.replicate (m - (left.length + right.length)) ' ' ++
          right.data⟩) ∧
    (m ≤ left.length + right.length →
      justifyLine left right m =
        ⟨left.data.take (m - right.length) ++ right.data⟩) ∧
    LINE_SINGLE.length = 32 ∧ LINE_DOUBLE.length = 32 ∧
    LINE_DASHED.length = 32 := by
  have hlen : ∀ l : List Char, (String.mk l).length = l.length :=
    fun l => rfl
  have hdata : ∀ l : List Char, (String.mk l).data = l :=
    fun l => rfl
  by_cases hc : m ≤ left.length + right.length
  · have hL : left.length = left.data.length := rfl
    have hR : right.length = right.data.length := rfl
    refine ⟨?_, ?_, fun hlt => absurd hc (not_le.mpr hlt), fun _ => ?_,
      by decide, by decide, by decide⟩
    · rw [justifyLine, if_pos hc, hlen, List.length_append,
        List.length_take]
      omega
    · exact ⟨left.data.take (m - right.length), by
        rw [justifyLine, if_pos hc, hdata]⟩
    · rw [justifyLine, if_pos hc]
  · have hlt : left.length + right.length < m := not_le.mp hc
    refine ⟨?_, ?_, fun _ => ?_, fun hge => absurd hge hc,
      by decide, by decide, by decide⟩
    · rw [justifyLine, if_neg hc, hlen, List.length_append,
        List.length_append, List.length_replicate]
      have hL : left.data.length = left.length := rfl
      have hR : right.data.length = right.length := rfl
      omega
    · refine ⟨left.data ++
        List.replicate (m - (left.length + right.length)) ' ', by
          rw [justifyLine, if_neg hc, hdata, List.append_assoc]⟩
    · rw [justifyLine, if_neg hc]

/-- C6, witness: a concrete label/amount pair at the default width 32. -/
theorem justifyLine_check :
    ("Rp 50.000" : String).length ≤ 32 ∧
    (justifyLine "TOTAL:" "Rp 50.000" 32).length = 32 ∧
    (justifyLine "TOTAL:" "Rp 50.000" 32).data =
      ("TOTAL:" ++ String.mk (List.replicate 17 ' ') ++ "Rp 50.000").data := by
  have h := justifyLine_spec "TOTAL:" "Rp 50.000" 32 (by decide)
  refine ⟨by decide, h.1, ?_⟩
  have e := h.2.2.1 (by decide)
  rw [e]
  decide

theorem chunkGo_congr : ∀ (f1 f2 : ℕ) (l : List ℕ),
    l.length ≤ f1 → l.length ≤ f2 → chunkGo f1 l = chunkGo f2 l := by
  intro f1
  induction f1 with
  | zero =>
    intro f2 l h1 _
    have hnil : l = [] := List.eq_nil_of_length_eq_zero (Nat.le_zero.mp h1)
    subst hnil
    cases f2 <;> rfl
  | succ f1 ih =>
    intro f2 l h1 h2
    cases l with
    | nil => cases f2 <;> rfl
    | cons b rest =>
      cases f2 with
      | zero => simp at h2
      | succ f2 =>
        show (b :: rest).take 20 :: chunkGo f1 ((b :: rest).drop 20) =
          (b :: rest).take 20 :: chunkGo f2 ((b :: rest).drop 20)
        have hd : ((b :: rest).drop 20).length ≤ f1 := by
          simp only [List.length_drop, List.length_cons]
          simp only [List.length_cons] at h1
          omega
        have hd2 : ((b :: rest).drop 20).length ≤ f2 := by
          simp only [List.length_drop, List.length_cons]
          simp only [List.length_cons] at h2
          omega
        rw [ih f2 ((b :: rest).drop 20) hd hd2]

theorem chunkData_nil : chunkData [] = [] := rfl

theorem chunkData_cons (l : List ℕ) (h : l ≠ []) :
    chunkData l = l.take 20 :: chunkData (l.drop 20) := by
  obtain ⟨b, rest, hbr⟩ := List.exists_cons_of_ne_nil h
  subst hbr
  show chunkGo (b :: rest).length (b :: rest) = _
  rw [List.length_cons]
  show (b :: rest).take 20 :: chunkGo rest.length ((b :: rest).drop 20) = _
  have hd : ((b :: rest).drop 20).length ≤ rest.length := by
    rw [List.length_drop]
    simp
  rw [chunkGo_congr rest.length ((b :: rest).drop 20).length
    ((b :: rest).drop 20) hd le_rfl]
  rfl

theorem chunkData_ne_nil (l : List ℕ) (h : l ≠ []) : chunkData l ≠ [] := by
  rw [chunkData_cons l h]
  exact List.cons_ne_nil _ _

theorem chunkData_flatten (l : List ℕ) : (chunkData l).flatten = l := by
  have H : ∀ n (l : List ℕ), l.length ≤ n → (chunkData l).flatten = l := by
    intro n
    induction n with
    | zero =>
      intro l hl
      have hnil : l = [] := List.eq_nil_of_length_eq_zero (Nat.le_zero.mp hl)
      subst hnil
      simp [chunkData_nil]
    | succ n ih =>
      intro l hl
      by_cases h : l = []
      · subst h
        simp [chunkData_nil]
      · have hpos : 0 < l.length := List.length_pos.mpr h
        rw [chunkData_cons l h, List.flatten_cons,
          ih (l.drop 20) (by rw [List.length_drop]; omega),
          List.take_append_drop]
  exact H l.length l le_rfl

theorem chunkData_mem_le (l : List ℕ) : ∀ c ∈ chunkData l, c.length ≤ 20 := by
  have H : ∀ n (l : List ℕ), l.length ≤ n →
      ∀ c ∈ chunkData l, c.length ≤ 20 := by
    intro n
    induction n with
    | zero =>
      intro l hl c hc
      have hnil : l = [] := List.eq_nil_of_length_eq_zero (Nat.le_zero.mp hl)
      subst hnil
      rw [chunkData_nil] at hc
      exact absurd hc (List.not_mem_nil c)
    | succ n ih =>
      intro l hl c hc
      by_cases h : l = []
      · subst h
        rw [chunkData_nil] at hc
        exact absurd hc (List.not_mem_nil c)
      · have hpos : 0 < l.length := List.length_pos.mpr h
        rw [chunkData_cons l h] at hc
        rcases List.mem_cons.mp hc with hc | hc
        · subst hc
          rw [List.length_take]
          omega
        · exact ih (l.drop 20) (by rw [List.length_drop]; omega) c hc
  exact H l.length l le_rfl

theorem chunkData_dropLast (l : List ℕ) :
    ∀ c ∈ (chunkData l).dropLast, c.length = 20 := by
  have H : ∀ n (l : List ℕ), l.length ≤ n →
      ∀ c ∈ (chunkData l).dropLast, c.length = 20 := by
    intro n
    induction n with
    | zero =>
      intro l hl c hc
      have hnil : l = [] := List.eq_nil_of_length_eq_zero (Nat.le_zero.mp hl)
      subst hnil
      rw [chunkData_nil] at hc
      exact absurd hc (List.not_mem_nil c)
    | succ n ih =>
      intro l hl c hc
      by_cases h : l = []
      · subst h
        rw [chunkData_nil] at hc
        exact absurd hc (List.not_mem_nil c)
      · have hpos : 0 < l.length := List.length_pos.mpr h
        rw [chunkData_cons l h] at hc
        by_cases hd : l.drop 20 = []
        · rw [hd, chunkData_nil] at hc
          simp at hc
        · have hrest := chunkData_ne_nil (l.drop 20) hd
          obtain ⟨r, rs, hr⟩ := List.exists_cons_of_ne_nil hrest
          rw [hr, List.dropLast_cons₂] at hc
          rcases List.mem_cons.mp hc with hc | hc
          · subst hc
            have h20 : 20 < l.length := by
              by_contra hle
              exact hd (List.drop_eq_nil_of_le (by omega))
            rw [List.length_take]
            omega
          · rw [← hr] at hc
            exact ih (l.drop 20) (by rw [List.length_drop]; omega) c hc
  exact H l.length l le_rfl

/-- C10: `sendData` transmits the UTF-8 encoding of its input as a
sequence of chunks in order — each at most 20 bytes, every chunk but
possibly the last exactly 20 bytes — whose concatenation is exactly the
encoded payload, so the chunked transmission is equivalent to one write of
the whole encoding. -/
theorem sendData_chunk_spec (data : String) :
    (sendData data).flatten = encodeUTF8 data ∧
    (∀ c ∈ sendData data, c.length ≤ 20) ∧
    (∀ c ∈ (sendData data).dropLast, c.length = 20) :=
  ⟨chunkData_flatten (encodeUTF8 data),
   chunkData_mem_le (encodeUTF8 data),
   chunkData_dropLast (encodeUTF8 data)⟩

/-- C10, witness: a 31-byte receipt line is sent as a 20-byte chunk
followed by an 11-byte chunk, and the chunks reassemble to the encoding. -/
theorem sendData_chunk_check :
    (sendData "GOOD WAYS - Sistem Kasir Digita").flatten =
      encodeUTF8 "GOOD WAYS - Sistem Kasir Digita" ∧
    (sendData "GOOD WAYS - Sistem Kasir Digita").map List.length =
      [20, 11] := by
  have h := sendData_chunk_spec "GOOD WAYS - Sistem Kasir Digita"
  exact ⟨h.1, by decide⟩

theorem foldl_add_map {α : Type} (f : α → ℚ) (l : List α) (a : ℚ) :
    l.foldl (fun s x => s + f x) a = a + (l.map f).sum := by
  induction l generalizing a with
  | nil => simp
  | cons x xs ih => simp [ih, add_assoc]

theorem addOnsTotal_selected (ao : List ModalAddon) :
    addOnsTotal (selectedAddOns ao) =
      ((ao.filter fun a => a.selected).map fun a => a.price).sum := by
  rw [addOnsTotal, foldl_add_map (fun a => a.price) (selectedAddOns ao) 0,
    zero_add, selectedAddOns, List.map_map]
  rfl

/-- C9: every cart item built by `addToCart` or `updateCartItem` has
`totalPrice = (product price + sum of selected add-on prices) × quantity`;
`grandTotal` is the sum of `totalPrice` over the cart (and grows by the new
item's `totalPrice` on `addToCart`); and the payment screen records
`subtotal = total = grandTotal` with no further charges. -/
theorem cart_totals_spec (cart : List CartItem) (p : Product) (q : ℚ)
    (mv : String) (ao : List ModalAddon) (i : ℕ) (cn uid : String)
    (s : PaymentState) :
    (∀ item ∈ addToCart cart p q mv ao, item ∈ cart ∨
      item.totalPrice =
        (p.price +
          ((ao.filter fun a => a.selected).map fun a => a.price).sum) * q) ∧
    (∀ item ∈ updateCartItem cart i p q mv ao, item ∈ cart ∨
      item.totalPrice =
        (p.price +
          ((ao.filter fun a => a.selected).map fun a => a.price).sum) * q) ∧
    grandTotal cart = (cart.map fun it => it.totalPrice).sum ∧
    grandTotal (addToCart cart p q mv ao) =
      (cart.map fun it => it.totalPrice).sum +
        (p.price +
          ((ao.filter fun a => a.selected).map fun a => a.price).sum) * q ∧
    (buildNewTransaction cart (grandTotal cart) cn uid s).subtotal =
      (cart.map fun it => it.totalPrice).sum ∧
    (buildNewTransaction cart (grandTotal cart) cn uid s).total =
      (cart.map fun it => it.totalPrice).sum := by
  have htp : (mkCartItem p q mv ao).totalPrice =
      (p.price +
        ((ao.filter fun a => a.selected).map fun a => a.price).sum) * q := by
    rw [← addOnsTotal_selected]
    rfl
  have hgt : ∀ c : List CartItem,
      grandTotal c = (c.map fun it => it.totalPrice).sum := fun c => by
    rw [grandTotal, foldl_add_map (fun it => it.totalPrice) c 0, zero_add]
  refine ⟨?_, ?_, hgt cart, ?_, ?_, ?_⟩
  · intro item hmem
    rcases List.mem_append.mp hmem with hc | hc
    · exact Or.inl hc
    · right
      rw [List.mem_singleton.mp hc]
      exact htp
  · intro item hmem
    rcases List.mem_or_eq_of_mem_set hmem with hc | hc
    · exact Or.inl hc
    · right
      rw [hc]
      exact htp
  · rw [hgt, addToCart, List.map_append, List.sum_append]
    simp [htp]
  · rw [buildNewTransaction]
    exact hgt cart
  · rw [buildNewTransaction]
    exact hgt cart

/-- C9, witness: a coffee with one selected add-on at quantity 2 yields
`totalPrice` 40 000 and the cart totals follow. -/
theorem cart_totals_check :
    mkCartItem (Product.mk "p1" "Kopi" 15000 "minuman" none "" true true) 2
      "Ice" [ModalAddon.mk "Boba" 5000 true, ModalAddon.mk "Keju" 3000 false]
      ∈ addToCart [] (Product.mk "p1" "Kopi" 15000 "minuman" none "" true true)
        2 "Ice"
        [ModalAddon.mk "Boba" 5000 true,
         ModalAddon.mk "Keju" 3000 false] ∧
    (mkCartItem (Product.mk "p1" "Kopi" 15000 "minuman" none "" true true) 2
      "Ice" [ModalAddon.mk "Boba" 5000 true,
             ModalAddon.mk "Keju" 3000 false]).totalPrice = 40000 := by
  have h := cart_totals_spec []
    (Product.mk "p1" "Kopi" 15000 "minuman" none "" true true) 2 "Ice"
    [ModalAddon.mk "Boba" 5000 true, ModalAddon.mk "Keju" 3000 false] 0
    "kasir" "u1" (PaymentState.mk .bayar_langsung .cash "" 0 "" "")
  have hmem : mkCartItem
      (Product.mk "p1" "Kopi" 15000 "minuman" none "" true true) 2 "Ice"
      [ModalAddon.mk "Boba" 5000 true, ModalAddon.mk "Keju" 3000 false] ∈
      addToCart [] (Product.mk "p1" "Kopi" 15000 "minuman" none "" true true)
        2 "Ice"
        [ModalAddon.mk "Boba" 5000 true, ModalAddon.mk "Keju" 3000 false] :=
    List.mem_append_right _ (List.mem_singleton.mpr rfl)
  have hval := (h.1 _ hmem).resolve_left (List.not_mem_nil _)
  refine ⟨hmem, hval.trans ?_⟩
  simp
  norm_num

theorem filter_paid_of_filter_not_open (data : List Transaction) :
    ((data.filter fun t => !(t.payment_status == "open_bill")).filter
      fun t => t.payment_status == "paid") =
      data.filter fun t => t.payment_status == "paid" := by
  induction data with
  | nil => rfl
  | cons t rest ih =>
    by_cases hp : t.payment_status = "paid"
    · have h1 : (t.payment_status == "paid") = true := by simp [hp]
      have h2 : (t.payment_status == "open_bill") = false := by simp [hp]
      simp [List.filter_cons, h1, h2, ih]
    · have h1 : (t.payment_status == "paid") = false := by simp [hp]
      cases h2 : (t.payment_status == "open_bill") <;>
        simp [List.filter_cons, h1, h2, ih]

/-- C7: `calculateStats` sums `total` over the `paid` transactions into
`totalSales`, counts them into `totalTransactions`, averages them when any
exist (0 otherwise), counts the `open_bill` transactions into `openBills`,
and open-bill transactions contribute nothing to `totalSales` or
`todaySales`. -/
theorem calculateStats_spec (isToday : String → Bool)
    (data : List Transaction) :
    (calculateStats isToday data).totalSales =
      ((data.filter fun t => t.payment_status == "paid").map fun t =>
        t.total).sum ∧
    (calculateStats isToday data).totalTransactions =
      data.countP (fun t => t.payment_status == "paid") ∧
    (0 < (calculateStats isToday data).totalTransactions →
      (calculateStats isToday data).averageTransaction =
        (calculateStats isToday data).totalSales /
          ((calculateStats isToday data).totalTransactions : ℚ)) ∧
    ((calculateStats isToday data).totalTransactions = 0 →
      (calculateStats isToday data).averageTransaction = 0) ∧
    (calculateStats isToday data).openBills =
      data.countP (fun t => t.payment_status == "open_bill") ∧
    (calculateStats isToday data).todaySales =
      (((data.filter fun t => t.payment_status == "paid").filter fun t =>
        isToday t.transaction_date).map fun t => t.total).sum ∧
    (calculateStats isToday (data.filter fun t =>
        !(t.payment_status == "open_bill"))).totalSales =
      (calculateStats isToday data).totalSales ∧
    (calculateStats isToday (data.filter fun t =>
        !(t.payment_status == "open_bill"))).todaySales =
      (calculateStats isToday data).todaySales := by
  have hTS : ∀ d : List Transaction, (calculateStats isToday d).totalSales =
      ((d.filter fun t => t.payment_status == "paid").map fun t =>
        t.total).sum := by
    intro d
    show (d.filter fun t => t.payment_status == "paid").foldl
      (fun sum t => sum + t.total) 0 = _
    rw [foldl_add_map, zero_add]
  have hToday : ∀ d : List Transaction,
      (calculateStats isToday d).todaySales =
      (((d.filter fun t => t.payment_status == "paid").filter fun t =>
        isToday t.transaction_date).map fun t => t.total).sum := by
    intro d
    show ((d.filter fun t => t.payment_status == "paid").filter fun t =>
      isToday t.transaction_date).foldl (fun sum t => sum + t.total) 0 = _
    rw [foldl_add_map, zero_add]
  refine ⟨hTS data, ?_, ?_, ?_, ?_, hToday data, ?_, ?_⟩
  · show (data.filter fun t => t.payment_status == "paid").length = _
    rw [List.countP_eq_length_filter]
  · intro h
    have h' : 0 < (data.filter fun t =>
        t.payment_status == "paid").length := h
    show (if 0 < (data.filter fun t =>
        t.payment_status == "paid").length then _ else 0) = _
    rw [if_pos h']
    rfl
  · intro h
    have h' : (data.filter fun t =>
        t.payment_status == "paid").length = 0 := h
    show (if 0 < (data.filter fun t =>
        t.payment_status == "paid").length then _ else 0) = 0
    rw [if_neg (by omega)]
  · show (data.filter fun t => t.payment_status == "open_bill").length = _
    rw [List.countP_eq_length_filter]
  · rw [hTS, hTS, filter_paid_of_filter_not_open]
  · rw [hToday, hToday, filter_paid_of_filter_not_open]

/-- C7, witness: one paid and one open-bill transaction — the average over
the single paid transaction is `totalSales / totalTransactions`. -/
theorem calculateStats_check :
    0 < (calculateStats (fun _ => true)
      [Transaction.mk "t1" "TRX-1" "d1" [] 10000 "paid" (some "cash") none
        "kasir",
       Transaction.mk "t2" "TRX-2" "d2" [] 5000 "open_bill" none
        (some "Budi") "kasir"]).totalTransactions ∧
    (calculateStats (fun _ => true)
      [Transaction.mk "t1" "TRX-1" "d1" [] 10000 "paid" (some "cash") none
        "kasir",
       Transaction.mk "t2" "TRX-2" "d2" [] 5000 "open_bill" none
        (some "Budi") "kasir"]).averageTransaction =
      (calculateStats (fun _ => true)
        [Transaction.mk "t1" "TRX-1" "d1" [] 10000 "paid" (some "cash") none
          "kasir",
         Transaction.mk "t2" "TRX-2" "d2" [] 5000 "open_bill" none
          (some "Budi") "kasir"]).totalSales /
        ((calculateStats (fun _ => true)
          [Transaction.mk "t1" "TRX-1" "d1" [] 10000 "paid" (some "cash")
            none "kasir",
           Transaction.mk "t2" "TRX-2" "d2" [] 5000 "open_bill" none
            (some "Budi") "kasir"]).totalTransactions : ℚ) := by
  have h := calculateStats_spec (fun _ => true)
    [Transaction.mk "t1" "TRX-1" "d1" [] 10000 "paid" (some "cash") none
      "kasir",
     Transaction.mk "t2" "TRX-2" "d2" [] 5000 "open_bill" none
      (some "Budi") "kasir"]
  exact ⟨by decide, h.2.2.1 (by decide)⟩

theorem lookupPM_upsert_self (m : ProductMap) (name : String) (q r : ℚ) :
    lookupPM (upsertPM m name q r) name =
      some (((lookupPM m name).getD (0, 0)).1 + q,
        ((lookupPM m name).getD (0, 0)).2 + r) := by
  induction m with
  | nil => simp [upsertPM, lookupPM]
  | cons e rest ih =>
    obtain ⟨n, q0, r0⟩ := e
    by_cases h : n = name
    · subst h
      simp [upsertPM, lookupPM]
    · simp [upsertPM, lookupPM, h, ih]

theorem lookupPM_upsert_ne (m : ProductMap) (key name : String) (q r : ℚ)
    (h : key ≠ name) :
    lookupPM (upsertPM m key q r) name = lookupPM m name := by
  induction m with
  | nil => simp [upsertPM, lookupPM, h]
  | cons e rest ih =>
    obtain ⟨n, q0, r0⟩ := e
    by_cases h0 : n = key
    · subst h0
      simp [upsertPM, lookupPM, h]
    · by_cases h1 : n = name
      · subst h1
        simp [upsertPM, lookupPM, h0, Ne.symm h]
      · simp [upsertPM, lookupPM, h0, h1, ih]

theorem mem_keys_upsert (m : ProductMap) (name : String) (q r : ℚ)
    (x : String) :
    x ∈ (upsertPM m name q r).map Prod.fst ↔
      x ∈ m.map Prod.fst ∨ x = name := by
  induction m with
  | nil => simp [upsertPM]
  | cons e rest ih =>
    obtain ⟨n, q0, r0⟩ := e
    by_cases h : n = name
    · subst h
      have hu : upsertPM ((n, (q0, r0)) :: rest) n q r =
          (n, (q0 + q, r0 + r)) :: rest := by
        simp [upsertPM]
      rw [hu]
      simp only [List.map_cons, List.mem_cons]
      tauto
    · simp only [upsertPM, if_neg h, List.map_cons, List.mem_cons, ih]
      tauto

theorem keys_nodup_upsert (m : ProductMap) (name : String) (q r : ℚ)
    (h : (m.map Prod.fst).Nodup) :
    ((upsertPM m name q r).map Prod.fst).Nodup := by
  induction m with
  | nil => simp [upsertPM]
  | cons e rest ih =>
    obtain ⟨n, q0, r0⟩ := e
    simp only [List.map_cons, List.nodup_cons] at h
    by_cases h0 : n = name
    · subst h0
      have hu : upsertPM ((n, (q0, r0)) :: rest) n q r =
          (n, (q0 + q, r0 + r)) :: rest := by
        simp [upsertPM]
      rw [hu]
      simp only [List.map_cons, List.nodup_cons]
      exact h
    · simp only [upsertPM, if_neg h0, List.map_cons, List.nodup_cons]
      refine ⟨?_, ih h.2⟩
      intro hx
      rcases (mem_keys_upsert rest name q r n).mp hx with hx | hx
      · exact h.1 hx
      · exact h0 hx

theorem mem_lookupPM (m : ProductMap) (e : String × ℚ × ℚ) (he : e ∈ m)
    (h : (m.map Prod.fst).Nodup) : lookupPM m e.1 = some e.2 := by
  induction m with
  | nil => cases he
  | cons x rest ih =>
    obtain ⟨n, qr⟩ := x
    simp only [List.map_cons, List.nodup_cons] at h
    rcases List.mem_cons.mp he with he | he
    · subst he
      simp [lookupPM]
    · have hne : n ≠ e.1 := by
        intro he1
        exact h.1 (he1.symm ▸ List.mem_map_of_mem Prod.fst he)
      simp [lookupPM, hne, ih he h.2]

theorem qtySum_cons_eq (name : String) (it : TransItem)
    (rest : List TransItem) (h : it.product_name = name) :
    qtySum name (it :: rest) = it.quantity + qtySum name rest := by
  simp [qtySum, List.filter_cons, h]

theorem qtySum_cons_ne (name : String) (it : TransItem)
    (rest : List TransItem) (h : it.product_name ≠ name) :
    qtySum name (it :: rest) = qtySum name rest := by
  simp [qtySum, List.filter_cons, h]

theorem revSum_cons_eq (name : String) (it : TransItem)
    (rest : List TransItem) (h : it.product_name = name) :
    revSum name (it :: rest) = it.totalPrice + revSum name rest := by
  simp [revSum, List.filter_cons, h]

theorem revSum_cons_ne (name : String) (it : TransItem)
    (rest : List TransItem) (h : it.product_name ≠ name) :
    revSum name (it :: rest) = revSum name rest := by
  simp [revSum, List.filter_cons, h]

theorem lookupPM_foldl_some (its : List TransItem) :
    ∀ (m : ProductMap) (name : String) (q0 r0 : ℚ),
      lookupPM m name = some (q0, r0) →
      lookupPM (its.foldl (fun m it =>
          upsertPM m it.product_name it.quantity it.totalPrice) m) name =
        some (q0 + qtySum name its, r0 + revSum name its) := by
  induction its with
  | nil =>
    intro m name q0 r0 h
    simp [qtySum, revSum, h]
  | cons it rest ih =>
    intro m name q0 r0 h
    simp only [List.foldl_cons]
    by_cases hn : it.product_name = name
    · have h1 : lookupPM
          (upsertPM m it.product_name it.quantity it.totalPrice) name =
          some (q0 + it.quantity, r0 + it.totalPrice) := by
        rw [hn, lookupPM_upsert_self, h]
        simp
      rw [ih _ name _ _ h1, qtySum_cons_eq name it rest hn,
        revSum_cons_eq name it rest hn, add_assoc, add_assoc]
    · have h1 : lookupPM
          (upsertPM m it.product_name it.quantity it.totalPrice) name =
          some (q0, r0) := by
        rw [lookupPM_upsert_ne _ _ _ _ _ hn, h]
      rw [ih _ name _ _ h1, qtySum_cons_ne name it rest hn,
        revSum_cons_ne name it rest hn]

theorem lookupPM_foldl_none (its : List TransItem) :
    ∀ (m : ProductMap) (name : String),
      lookupPM m name = none →
      lookupPM (its.foldl (fun m it =>
          upsertPM m it.product_name it.quantity it.totalPrice) m) name =
        if its.any (fun it => it.product_name == name) then
          some (qtySum name its, revSum name its)
        else none := by
  induction its with
  | nil =>
    intro m name h
    simp [h]
  | cons it rest ih =>
    intro m name h
    simp only [List.foldl_cons, List.any_cons]
    by_cases hn : it.product_name = name
    · have h1 : lookupPM
          (upsertPM m it.product_name it.quantity it.totalPrice) name =
          some (0 + it.quantity, 0 + it.totalPrice) := by
        rw [hn, lookupPM_upsert_self, h]
        simp
      rw [lookupPM_foldl_some rest _ name _ _ h1]
      have hb : (it.product_name == name) = true := by simp [hn]
      simp [hb, qtySum_cons_eq name it rest hn,
        revSum_cons_eq name it rest hn]
    · have h1 : lookupPM
          (upsertPM m it.product_name it.quantity it.totalPrice) name =
          none := by
        rw [lookupPM_upsert_ne _ _ _ _ _ hn, h]
      rw [ih _ name h1]
      have hb : (it.product_name == name) = false := by simp [hn]
      simp [hb, qtySum_cons_ne name it rest hn,
        revSum_cons_ne name it rest hn]

theorem keys_nodup_foldl (its : List TransItem) :
    ∀ m : ProductMap, (m.map Prod.fst).Nodup →
      ((its.foldl (fun m it =>
        upsertPM m it.product_name it.quantity it.totalPrice) m).map
          Prod.fst).Nodup := by
  induction its with
  | nil => exact fun m h => h
  | cons it rest ih =>
    intro m h
    exact ih _ (keys_nodup_upsert _ _ _ _ h)

theorem foldl_upsert_flatten (ls : List (List TransItem)) :
    ∀ m : ProductMap,
      ls.foldl (fun m its => its.foldl (fun m it =>
        upsertPM m it.product_name it.quantity it.totalPrice) m) m =
      ls.flatten.foldl (fun m it =>
        upsertPM m it.product_name it.quantity it.totalPrice) m := by
  induction ls with
  | nil => exact fun m => rfl
  | cons its rest ih =>
    intro m
    simp only [List.flatten_cons, List.foldl_append, List.foldl_cons]
    exact ih _

theorem buildProductMap_eq_foldl (data : List Transaction) :
    buildProductMap data = (paidItems data).foldl (fun m it =>
      upsertPM m it.product_name it.quantity it.totalPrice) [] := by
  rw [buildProductMap, paidItems, ← foldl_upsert_flatten, List.foldl_map]

theorem mem_insertDesc (x : BestSellerProduct) (l : List BestSellerProduct)
    (a : BestSellerProduct) : a ∈ insertDesc x l ↔ a = x ∨ a ∈ l := by
  induction l with
  | nil => simp [insertDesc]
  | cons y ys ih =>
    show a ∈ (if y.total_quantity < x.total_quantity then x :: y :: ys
      else y :: insertDesc x ys) ↔ _
    by_cases h : y.total_quantity < x.total_quantity
    · rw [if_pos h]
      simp only [List.mem_cons]
    · rw [if_neg h]
      simp only [List.mem_cons, ih]
      tauto

theorem pairwise_insertDesc (x : BestSellerProduct)
    (l : List BestSellerProduct)
    (h : l.Pairwise fun a b => b.total_quantity ≤ a.total_quantity) :
    (insertDesc x l).Pairwise
      fun a b => b.total_quantity ≤ a.total_quantity := by
  induction l with
  | nil => simp [insertDesc]
  | cons y ys ih =>
    rcases List.pairwise_cons.mp h with ⟨hy, hys⟩
    show ((if y.total_quantity < x.total_quantity then x :: y :: ys
      else y :: insertDesc x ys)).Pairwise _
    by_cases hlt : y.total_quantity < x.total_quantity
    · rw [if_pos hlt]
      refine List.pairwise_cons.mpr ⟨?_, h⟩
      intro z hz
      rcases List.mem_cons.mp hz with rfl | hz
      · exact le_of_lt hlt
      · exact le_trans (hy z hz) (le_of_lt hlt)
    · rw [if_neg hlt]
      refine List.pairwise_cons.mpr ⟨?_, ih hys⟩
      intro z hz
      rcases (mem_insertDesc x ys z).mp hz with rfl | hz
      · exact not_lt.mp hlt
      · exact hy z hz

theorem pairwise_sortDesc (l : List BestSellerProduct) :
    (sortDesc l).Pairwise fun a b =>
      b.total_quantity ≤ a.total_quantity := by
  induction l with
  | nil => simp [sortDesc]
  | cons x xs ih => exact pairwise_insertDesc x _ ih

theorem mem_sortDesc (l : List BestSellerProduct) (a : BestSellerProduct) :
    a ∈ sortDesc l ↔ a ∈ l := by
  induction l with
  | nil => simp [sortDesc]
  | cons x xs ih =>
    show a ∈ insertDesc x (sortDesc xs) ↔ _
    rw [mem_insertDesc, ih, List.mem_cons]

/-- C8: `calculateBestSellers` returns at most 5 entries, sorted in
non-increasing order of `total_quantity`; each entry carries the summed
quantity and revenue of that product's items over the paid transactions;
and the computation ignores open-bill transactions entirely. -/
theorem calculateBestSellers_spec (data : List Transaction) :
    (calculateBestSellers data).length ≤ 5 ∧
    (calculateBestSellers data).Pairwise
      (fun a b => b.total_quantity ≤ a.total_quantity) ∧
    (∀ e ∈ calculateBestSellers data,
      e.total_quantity = qtySum e.product_name (paidItems data) ∧
      e.total_revenue = revSum e.product_name (paidItems data)) ∧
    calculateBestSellers (data.filter fun t =>
      !(t.payment_status == "open_bill")) = calculateBestSellers data := by
  refine ⟨?_, ?_, ?_, ?_⟩
  · show ((sortDesc _).take 5).length ≤ 5
    rw [List.length_take]
    exact min_le_left _ _
  · exact List.Pairwise.sublist (List.take_sublist 5 _) (pairwise_sortDesc _)
  · intro e he
    have h1 : e ∈ sortDesc ((buildProductMap data).map fun x =>
        { product_name := x.1
          total_quantity := x.2.1
          total_revenue := x.2.2 : BestSellerProduct }) :=
      List.mem_of_mem_take he
    have h2 := (mem_sortDesc _ e).mp h1
    obtain ⟨x, hx, hxe⟩ := List.mem_map.mp h2
    have hnodup : (((paidItems data).foldl (fun m it =>
        upsertPM m it.product_name it.quantity it.totalPrice)
          ([] : ProductMap)).map Prod.fst).Nodup :=
      keys_nodup_foldl (paidItems data) [] (by simp)
    have hlook : lookupPM (buildProductMap data) x.1 = some x.2 := by
      refine mem_lookupPM _ x hx ?_
      rw [buildProductMap_eq_foldl]
      exact hnodup
    rw [buildProductMap_eq_foldl data,
      lookupPM_foldl_none (paidItems data) [] x.1 rfl] at hlook
    by_cases hany :
        ((paidItems data).any fun it => it.product_name == x.1) = true
    · rw [if_pos hany] at hlook
      have hx2 : x.2 = (qtySum x.1 (paidItems data),
          revSum x.1 (paidItems data)) := by
        injection hlook.symm
      have hname : e.product_name = x.1 := by rw [← hxe]
      have hq : e.total_quantity = x.2.1 := by rw [← hxe]
      have hr : e.total_revenue = x.2.2 := by rw [← hxe]
      rw [hname, hq, hr, hx2]
      exact ⟨rfl, rfl⟩
    · rw [if_neg hany] at hlook
      exact absurd hlook (by simp)
  · show (sortDesc ((buildProductMap _).map _)).take 5 =
      (sortDesc ((buildProductMap _).map _)).take 5
    rw [buildProductMap, buildProductMap, filter_paid_of_filter_not_open]

/-- C8, witness: two paid transactions with repeated products and one open
bill — the top seller's quantity is the sum over paid items only. -/
theorem calculateBestSellers_check :
    BestSellerProduct.mk "Kopi" 5 50000 ∈ calculateBestSellers
      [Transaction.mk "t1" "TRX-1" "d1"
        [TransItem.mk "Kopi" 2 20000, TransItem.mk "Teh" 1 8000]
        28000 "paid" (some "cash") none "kasir",
       Transaction.mk "t2" "TRX-2" "d2" [TransItem.mk "Kopi" 3 30000]
        30000 "paid" (some "qris") none "kasir",
       Transaction.mk "t3" "TRX-3" "d3" [TransItem.mk "Kopi" 9 90000]
        90000 "open_bill" none (some "Budi") "kasir"] ∧
    (BestSellerProduct.mk "Kopi" 5 50000).total_quantity =
      qtySum "Kopi" (paidItems
        [Transaction.mk "t1" "TRX-1" "d1"
          [TransItem.mk "Kopi" 2 20000, TransItem.mk "Teh" 1 8000]
          28000 "paid" (some "cash") none "kasir",
         Transaction.mk "t2" "TRX-2" "d2" [TransItem.mk "Kopi" 3 30000]
          30000 "paid" (some "qris") none "kasir",
         Transaction.mk "t3" "TRX-3" "d3" [TransItem.mk "Kopi" 9 90000]
          90000 "open_bill" none (some "Budi") "kasir"]) := by
  have h := calculateBestSellers_spec
    [Transaction.mk "t1" "TRX-1" "d1"
      [TransItem.mk "Kopi" 2 20000, TransItem.mk "Teh" 1 8000]
      28000 "paid" (some "cash") none "kasir",
     Transaction.mk "t2" "TRX-2" "d2" [TransItem.mk "Kopi" 3 30000]
      30000 "paid" (some "qris") none "kasir",
     Transaction.mk "t3" "TRX-3" "d3" [TransItem.mk "Kopi" 9 90000]
      90000 "open_bill" none (some "Budi") "kasir"]
  have hmem : BestSellerProduct.mk "Kopi" 5 50000 ∈ calculateBestSellers
      [Transaction.mk "t1" "TRX-1" "d1"
        [TransItem.mk "Kopi" 2 20000, TransItem.mk "Teh" 1 8000]
        28000 "paid" (some "cash") none "kasir",
       Transaction.mk "t2" "TRX-2" "d2" [TransItem.mk "Kopi" 3 30000]
        30000 "paid" (some "qris") none "kasir",
       Transaction.mk "t3" "TRX-3" "d3" [TransItem.mk "Kopi" 9 90000]
        90000 "open_bill" none (some "Budi") "kasir"] := by
    norm_num [calculateBestSellers, buildProductMap, upsertPM, lookupPM,
      sortDesc, insertDesc, List.filter, List.foldl]
  exact ⟨hmem, (h.2.2.1 _ hmem).1⟩

end GoodWays
